import Mathlib

/-!
Verification of tools/s2_author_to_publications_json.py: a shallow embedding
of the script's pure logic (DOI normalization, author-name flattening,
selected-set loading, item construction, sorting, document assembly) as
executable Lean definitions, with theorems checking the specification's
statements about them.  The Metadata Provider is external to the repository
and is modelled as an opaque input: the (possibly failing) results of the
two calls the script can make to it.  Exceptions are modelled at call
granularity.  Python str.strip / str.lower are modelled on their ASCII
behaviour, which is all the data in question exercises.
-/

namespace S2P

/-- The six ASCII whitespace characters Python str.strip removes. -/
def isPyWs (c : Char) : Bool :=
  c == ' ' || c == '\t' || c == '\n' || c == '\r' || c == '\x0b' || c == '\x0c'

/-- Python str.strip on the character list of a string. -/
def stripChars (l : List Char) : List Char :=
  ((l.dropWhile isPyWs).reverse.dropWhile isPyWs).reverse

/-- Python str.strip. -/
def pyStrip (s : String) : String :=
  String.mk (stripChars s.data)

/-- One left-to-right scan of CPython str.replace(pat, ""): at each position,
if the (non-empty) pattern matches, it is deleted and scanning resumes after
the deleted occurrence; otherwise the character is kept.  The scan is
fuel-indexed so the kernel can evaluate it; each step consumes at least one
character, so fuel equal to the list length is always enough. -/
def removeAllGo (pat : List Char) : Nat → List Char → List Char
  | _, [] => []
  | 0, l => l
  | fuel + 1, c :: rest =>
    if !pat.isEmpty && pat.isPrefixOf (c :: rest) then
      removeAllGo pat fuel (rest.drop (pat.length - 1))
    else
      c :: removeAllGo pat fuel rest

/-- Python s.replace(pat, "") for a non-empty pattern. -/
def removeAll (pat l : List Char) : List Char :=
  removeAllGo pat l.length l

/-- Whether the pattern occurs as a contiguous sublist. -/
def containsPat (pat : List Char) : List Char → Bool
  | [] => pat.isEmpty
  | c :: rest => pat.isPrefixOf (c :: rest) || containsPat pat rest

def httpsPat : List Char := "https://doi.org/".data

def httpPat : List Char := "http://doi.org/".data

/-- Python s.lower().startswith("doi:") on a character list (ASCII lower). -/
def lowerStartsDoi (l : List Char) : Bool :=
  "doi:".data.isPrefixOf (l.map Char.toLower)

/-- norm_doi from the script: empty stays empty; otherwise strip, delete all
occurrences of the https then the http doi.org URL form, then drop a leading
case-insensitive "doi:" and strip the remainder. -/
def norm_doi (s : String) : String :=
  if s = "" then ""
  else
    let l1 := stripChars s.data
    let l2 := removeAll httpPat (removeAll httpsPat l1)
    if lowerStartsDoi l2 then String.mk (stripChars (l2.drop 4))
    else String.mk l2

/-- Modelled from the spec's words for C3 (to be compared with norm_doi from
the source): the string trimmed of whitespace, with a LEADING
"https://doi.org/" or "http://doi.org/" prefix stripped, and then a leading
case-insensitive "doi:" prefix stripped. -/
def specNormDoi (s : String) : String :=
  let t := stripChars s.data
  let t1 :=
    if httpsPat.isPrefixOf t then t.drop httpsPat.length
    else if httpPat.isPrefixOf t then t.drop httpPat.length
    else t
  let t2 := if lowerStartsDoi t1 then t1.drop 4 else t1
  String.mk t2

/-- The amended description of norm_doi: trim; remove ALL occurrences of the
https URL form and then of the http URL form, anywhere in the string; then
drop a leading case-insensitive "doi:" (checked on the first four characters)
and re-trim the remainder. -/
def specNormDoiAmended (s : String) : String :=
  if s = "" then ""
  else
    let t := stripChars s.data
    let u := removeAll httpPat (removeAll httpsPat t)
    if "doi:".data.isPrefixOf ((u.take 4).map Char.toLower) then
      String.mk (stripChars (u.drop 4))
    else String.mk u

/-- An author entity as tolerated by authors_to_str: Python None, a mapping
with an optional "name" entry (absent or None modelled as none), a bare
string, or an attribute-bearing object with an optional name attribute. -/
inductive AuthorEnt where
  | null : AuthorEnt
  | dict (name : Option String) : AuthorEnt
  | str (s : String) : AuthorEnt
  | obj (name : Option String) : AuthorEnt
deriving DecidableEq

/-- The stripped display name the loop body of authors_to_str computes for
one entity; none models the "a is None: continue" branch. -/
def entName : AuthorEnt → Option String
  | .null => none
  | .dict n => some (pyStrip (n.getD ""))
  | .str s => some (pyStrip s)
  | .obj n => some (pyStrip (n.getD ""))

/-- The names list the loop of authors_to_str accumulates: per entity, skip
None entities and entities whose stripped name is empty. -/
def collectNames : List AuthorEnt → List String
  | [] => []
  | a :: rest =>
    match entName a with
    | none => collectNames rest
    | some n => if n = "" then collectNames rest else n :: collectNames rest

/-- authors_to_str from the script: empty input gives "", otherwise the
surviving names joined with ", ". -/
def authors_to_str (authors : List AuthorEnt) : String :=
  if authors = [] then "" else String.intercalate ", " (collectNames authors)

/-- The per-entity contribution as the spec states it: the trimmed display
name when the entity yields a non-empty one. -/
def goodName (a : AuthorEnt) : Option String :=
  (entName a).bind fun n => if n = "" then none else some n

/-- A JSON-ish field value as the items dictionary stores it: null, an
integer, or a string. -/
inductive JVal where
  | jnull : JVal
  | jint (n : Int) : JVal
  | jstr (s : String) : JVal
deriving DecidableEq

def digitVal (c : Char) : Nat := c.toNat - 48

/-- Digits of a Python int literal after the first: decimal digits with
single underscores allowed between digits. -/
def digitsCore (acc : Nat) : List Char → Option Nat
  | [] => some acc
  | c :: rest =>
    if c.isDigit then digitsCore (10 * acc + digitVal c) rest
    else if c = '_' then
      match rest with
      | [] => none
      | d :: rest2 =>
        if d.isDigit then digitsCore (10 * acc + digitVal d) rest2 else none
    else none

def parseUnsigned : List Char → Option Nat
  | [] => none
  | c :: rest => if c.isDigit then digitsCore (digitVal c) rest else none

/-- Python int(str): optional surrounding whitespace, optional sign, decimal
digits with single underscores allowed between digits; none models a
ValueError. -/
def pyIntOfString (s : String) : Option Int :=
  match stripChars s.data with
  | '+' :: rest => (parseUnsigned rest).map fun n => (n : Int)
  | '-' :: rest => (parseUnsigned rest).map fun n => -(n : Int)
  | l => (parseUnsigned l).map fun n => (n : Int)

/-- The sort helpers y and c of main: int(value or 0) with any exception
giving 0.  A null or empty-string value is falsy, so int(0) = 0; a non-empty
string is parsed, with a parse failure caught to 0. -/
def toInt0 : JVal → Int
  | .jnull => 0
  | .jint n => n
  | .jstr s => if s = "" then 0 else (pyIntOfString s).getD 0

/-- The canonical output record main appends per raw record. -/
structure PublicationItem where
  doi : String
  title : String
  authors : String
  venue : String
  year : JVal
  url : String
  citationCount : JVal
  publicationDate : String
  publicationTypes : List String
  selected : Bool
deriving DecidableEq

/-- Python str.lower of the title, as a character list. -/
def lowerChars (s : String) : List Char := s.data.map Char.toLower

/-- Lexicographic less-or-equal on character lists by code point, as Python
compares strings. -/
def charsLe : List Char → List Char → Bool
  | [], _ => true
  | _ :: _, [] => false
  | a :: as, b :: bs => if a < b then true else if a = b then charsLe as bs else false

/-- The composite sort key of main: (y(x), c(x), title lowercased). -/
def sortKey (x : PublicationItem) : Int × Int × List Char :=
  (toInt0 x.year, toInt0 x.citationCount, lowerChars x.title)

/-- Lexicographic order on the whole key tuple, as Python compares tuples. -/
def keyLE (a b : Int × Int × List Char) : Prop :=
  a.1 < b.1 ∨ (a.1 = b.1 ∧
    (a.2.1 < b.2.1 ∨ (a.2.1 = b.2.1 ∧ charsLe a.2.2 b.2.2 = true)))

instance (a b : Int × Int × List Char) : Decidable (keyLE a b) := by
  unfold keyLE
  infer_instance

/-- Item a may stay before item b under list.sort(key, reverse=True): the key
of a is at least the key of b.  A stable sort by this relation is exactly
Python's stable descending sort. -/
def itemRel (a b : PublicationItem) : Prop := keyLE (sortKey b) (sortKey a)

instance : DecidableRel itemRel := fun a b => by
  unfold itemRel
  infer_instance

/-- items.sort(key=lambda x: (y(x), c(x), title.lower()), reverse=True):
modelled as a stable insertion sort by itemRel, which agrees with Python's
stable sort on every input. -/
def sortItems (l : List PublicationItem) : List PublicationItem :=
  List.insertionSort itemRel l

/-- The externalIds mapping, reduced to its optional "DOI" entry. -/
structure ExternalIds where
  DOI : Option String := none
deriving DecidableEq

/-- A raw provider record: every field of interest may be absent or null
(both modelled as none), matching safe_get's default behaviour across
mapping-like and attribute-like records. -/
structure RawPaper where
  title : Option String := none
  year : Option Int := none
  authors : Option (List AuthorEnt) := none
  venue : Option String := none
  url : Option String := none
  citationCount : Option Int := none
  publicationDate : Option String := none
  publicationTypes : Option (List String) := none
  externalIds : Option ExternalIds := none
  external_ids : Option ExternalIds := none
  paperId : Option String := none
  paper_id : Option String := none
deriving DecidableEq

/-- external_ids from the script: the externalIds mapping if it is one, else
the external_ids mapping if it is one, else empty. -/
def external_ids_of (p : RawPaper) : ExternalIds :=
  match p.externalIds with
  | some e => e
  | none => p.external_ids.getD {}

/-- doi = norm_doi(ext.get("DOI") or "") from main. -/
def doi_of (p : RawPaper) : String :=
  norm_doi ((external_ids_of p).DOI.getD "")

/-- The stored year field: safe_get(p, "year", "") or "" keeps a non-zero
integer and turns absence, None and 0 (falsy) into the empty string. -/
def year_field (p : RawPaper) : JVal :=
  match p.year with
  | none => .jstr ""
  | some n => if n = 0 then .jstr "" else .jint n

/-- The stored citationCount field: safe_get(p, "citationCount", None),
kept as-is with absence and None as null. -/
def citation_field (p : RawPaper) : JVal :=
  match p.citationCount with
  | none => .jnull
  | some n => .jint n

/-- paper_id = safe_get(p, "paperId", "") or safe_get(p, "paper_id", "") or "". -/
def paper_id_of (p : RawPaper) : String :=
  let a := p.paperId.getD ""
  if a ≠ "" then a else p.paper_id.getD ""

/-- url = safe_get(p, "url", "") or (synthesized from paper_id if present). -/
def url_of (p : RawPaper) : String :=
  let u := p.url.getD ""
  if u ≠ "" then u
  else if paper_id_of p ≠ "" then
    "https://www.semanticscholar.org/paper/" ++ paper_id_of p
  else ""

/-- The item main appends for one raw record, given the selected set. -/
def mk_item (sel : Finset String) (p : RawPaper) : PublicationItem :=
  let doi := doi_of p
  { doi := doi
    title := p.title.getD ""
    authors := authors_to_str (p.authors.getD [])
    venue := p.venue.getD ""
    year := year_field p
    url := url_of p
    citationCount := citation_field p
    publicationDate := p.publicationDate.getD ""
    publicationTypes := p.publicationTypes.getD []
    selected := if doi = "" then false else decide (doi ∈ sel) }

/-- Whether a stripped line starts with the comment marker. -/
def startsWithHash : List Char → Bool
  | '#' :: _ => true
  | _ => false

/-- The loop body of load_selected_dois: strip the line; skip it when blank
or a #-comment; otherwise insert its normalized form. -/
def loadStep (acc : Finset String) (line : String) : Finset String :=
  let l := stripChars line.data
  if l.isEmpty || startsWithHash l then acc
  else insert (norm_doi (String.mk l)) acc

/-- load_selected_dois from the script, with the filesystem abstracted: the
path being falsy or the file not existing gives the empty set; otherwise each
line is stripped, blank and #-comment lines are skipped, and the normalized
rest are inserted into a set. -/
def load_selected_dois (pathGiven fileExists : Bool) (lines : List String) :
    Finset String :=
  if !pathGiven || !fileExists then ∅
  else lines.foldl loadStep ∅

/-- Whether a line of the selected-identifiers file survives: its stripped
form is neither empty nor a #-comment. -/
def keepLine (line : String) : Bool :=
  !((stripChars line.data).isEmpty || startsWithHash (stripChars line.data))

/-- The normalized identifier a surviving line contributes. -/
def lineDoi (line : String) : String :=
  norm_doi (String.mk (stripChars line.data))

/-- A Python exception, at the granularity the model needs: TypeError (the
one exception iter_author_papers catches) versus everything else. -/
inductive PyExc where
  | typeError : PyExc
  | connectionError : PyExc
  | otherError (msg : String) : PyExc
deriving DecidableEq

/-- iter_author_papers from the script, with the provider opaque: callKw is
the outcome of the keyword-form request (fields and limit passed through to
the client), callPlain the outcome of the plain request.  A TypeError from
the keyword form is caught and the plain form is consumed instead, capped at
limit by the enumerate/break loop; any other error propagates.  The keyword
branch yields whatever the client returns, uncapped by the exporter. -/
def iter_author_papers (callKw callPlain : Except PyExc (List (Option RawPaper)))
    (limit : Nat) : Except PyExc (List (Option RawPaper)) :=
  match callKw with
  | .ok papers => .ok papers
  | .error .typeError =>
    match callPlain with
    | .ok papers => .ok (papers.take limit)
    | .error e => .error e
  | .error e => .error e

/-- The item-building loop of main: falsy (None/empty) records are skipped,
every other record becomes one item. -/
def build_items (sel : Finset String) (papers : List (Option RawPaper)) :
    List PublicationItem :=
  papers.filterMap fun p => p.map (mk_item sel)

structure SourceInfo where
  name : String
  via : String
deriving DecidableEq

structure Counts where
  total : Nat
deriving DecidableEq

/-- The persisted document: updatedAt, source, counts, sorted items. -/
structure ExportDocument where
  updatedAt : String
  source : SourceInfo
  counts : Counts
  items : List PublicationItem
deriving DecidableEq

/-- The document main assembles after sorting items in place. -/
def build_doc (authorId today : String) (items : List PublicationItem) :
    ExportDocument :=
  let sorted := sortItems items
  { updatedAt := today
    source := { name := "Semantic Scholar", via := "author:" ++ authorId }
    counts := { total := sorted.length }
    items := sorted }

/-- main from the script, with its effects as explicit inputs: the
selected-identifiers file (existence and lines), the two possible provider
call outcomes, the limit, the author id and today's date.  The document is
returned instead of written; an uncaught exception is returned as error. -/
def main (pathGiven fileExists : Bool) (selLines : List String)
    (callKw callPlain : Except PyExc (List (Option RawPaper)))
    (limit : Nat) (authorId today : String) : Except PyExc ExportDocument :=
  let sel := load_selected_dois pathGiven fileExists selLines
  (iter_author_papers callKw callPlain limit).map fun papers =>
    build_doc authorId today (build_items sel papers)

/-- The output path's contents after a run: the write step runs only after
the whole pipeline has succeeded in memory, so an error leaves the prior
contents. -/
def written (prior : Option ExportDocument)
    (result : Except PyExc ExportDocument) : Option ExportDocument :=
  match result with
  | .ok d => some d
  | .error _ => prior

/-- Whether a run completed without an uncaught exception. -/
def isOkB : Except PyExc ExportDocument → Bool
  | .ok _ => true
  | .error _ => false

/-- The number of items of a successful run's document, 0 for an aborted run. -/
def itemsLen : Except PyExc ExportDocument → Nat
  | .ok d => d.items.length
  | .error _ => 0

/-- The Zeta record of the spec's sort example: (2020, 5, "Zeta"). -/
def zetaItem : PublicationItem :=
  { doi := "", title := "Zeta", authors := "", venue := "", year := .jint 2020,
    url := "", citationCount := .jint 5, publicationDate := "",
    publicationTypes := [], selected := false }

/-- The Alpha record of the spec's sort example: (2020, 5, "Alpha"). -/
def alphaItem : PublicationItem :=
  { doi := "", title := "Alpha", authors := "", venue := "", year := .jint 2020,
    url := "", citationCount := .jint 5, publicationDate := "",
    publicationTypes := [], selected := false }

/-- The Mid record of the spec's sort example: (2021, 1, "Mid"). -/
def midItem : PublicationItem :=
  { doi := "", title := "Mid", authors := "", venue := "", year := .jint 2021,
    url := "", citationCount := .jint 1, publicationDate := "",
    publicationTypes := [], selected := false }

/-- A raw record carrying only the DOI 10.1/ABC. -/
def recABC : RawPaper :=
  { externalIds := some { DOI := some "10.1/ABC" } }

/-- A raw record with empty url and paperId abc123. -/
def recUrlEx : RawPaper :=
  { paperId := some "abc123" }

/-- A pattern that does not occur anywhere is not removed, whatever the fuel. -/
theorem removeAllGo_of_not_contains (pat : List Char) :
    ∀ (fuel : Nat) (l : List Char), containsPat pat l = false →
      removeAllGo pat fuel l = l := by
  intro fuel
  induction fuel with
  | zero =>
    intro l h
    cases l <;> rfl
  | succ n ih =>
    intro l h
    cases l with
    | nil => rfl
    | cons c rest =>
      have h2 : pat.isPrefixOf (c :: rest) = false ∧ containsPat pat rest = false := by
        simpa [containsPat, Bool.or_eq_false_iff] using h
      simp [removeAllGo, h2.1, ih rest h2.2]

theorem removeAll_of_not_contains (pat l : List Char)
    (h : containsPat pat l = false) : removeAll pat l = l :=
  removeAllGo_of_not_contains pat l.length l h

/-- A string that is already stripped, contains neither doi.org URL form, and
does not start case-insensitively with "doi:" is a fixed point of norm_doi. -/
theorem norm_doi_fixpoint (s : String)
    (h1 : stripChars s.data = s.data)
    (h2 : containsPat httpsPat s.data = false)
    (h3 : containsPat httpPat s.data = false)
    (h4 : lowerStartsDoi s.data = false) :
    norm_doi s = s := by
  by_cases he : s = ""
  · simp [norm_doi, he]
  · simp only [norm_doi, if_neg he, h1, removeAll_of_not_contains httpsPat s.data h2,
      removeAll_of_not_contains httpPat s.data h3, h4, Bool.false_eq_true, if_false]

/-- isPrefixOf only looks at the first pat.length elements. -/
theorem isPrefixOf_take (pat : List Char) :
    ∀ l : List Char, pat.isPrefixOf (l.take pat.length) = pat.isPrefixOf l := by
  induction pat with
  | nil => intro l; cases l <;> rfl
  | cons p ps ih =>
    intro l
    cases l with
    | nil => rfl
    | cons a as => simp [List.isPrefixOf, ih as]

theorem doiCheck_take (u : List Char) :
    "doi:".data.isPrefixOf ((u.take 4).map Char.toLower) = lowerStartsDoi u := by
  rw [List.map_take, lowerStartsDoi]
  exact isPrefixOf_take "doi:".data (u.map Char.toLower)

theorem doiCheck_prefix_iff (u : List Char) :
    (['d', 'o', 'i', ':'] <+: List.take 4 (List.map Char.toLower u)) ↔
      lowerStartsDoi u = true := by
  have h4 : ("doi:".data : List Char) = ['d', 'o', 'i', ':'] := rfl
  rw [← h4, ← List.isPrefixOf_iff_prefix, ← List.map_take, doiCheck_take]

theorem charsLe_total : ∀ x y : List Char, charsLe x y = true ∨ charsLe y x = true := by
  intro x
  induction x with
  | nil => intro y; left; rfl
  | cons a as ih =>
    intro y
    cases y with
    | nil => right; rfl
    | cons b bs =>
      rcases lt_trichotomy a b with h | h | h
      · left; simp [charsLe, h]
      · subst h
        rcases ih bs with h2 | h2
        · left; simp [charsLe, h2]
        · right; simp [charsLe, h2]
      · right; simp [charsLe, h]

theorem charsLe_trans :
    ∀ x y z : List Char, charsLe x y = true → charsLe y z = true →
      charsLe x z = true := by
  intro x
  induction x with
  | nil => intro y z h1 h2; rfl
  | cons a as ih =>
    intro y z hxy hyz
    cases y with
    | nil => simp [charsLe] at hxy
    | cons b bs =>
      cases z with
      | nil => simp [charsLe] at hyz
      | cons c cs =>
        by_cases hab : a < b
        · by_cases hbc : b < c
          · simp [charsLe, lt_trans hab hbc]
          · by_cases hbce : b = c
            · subst hbce; simp [charsLe, hab]
            · simp [charsLe, hbc, hbce] at hyz
        · by_cases habe : a = b
          · subst habe
            have has : charsLe as bs = true := by
              simpa [charsLe, lt_irrefl] using hxy
            by_cases hac : a < c
            · simp [charsLe, hac]
            · by_cases hace : a = c
              · subst hace
                have hbs : charsLe bs cs = true := by
                  simpa [charsLe, lt_irrefl] using hyz
                simp [charsLe, lt_irrefl, ih bs cs has hbs]
              · simp [charsLe, hac, hace] at hyz
          · simp [charsLe, hab, habe] at hxy

theorem keyLE_total (x y : Int × Int × List Char) : keyLE x y ∨ keyLE y x := by
  obtain ⟨x1, x2, x3⟩ := x
  obtain ⟨y1, y2, y3⟩ := y
  rcases lt_trichotomy x1 y1 with h1 | h1 | h1
  · left; exact Or.inl h1
  · subst h1
    rcases lt_trichotomy x2 y2 with h2 | h2 | h2
    · left; exact Or.inr ⟨rfl, Or.inl h2⟩
    · subst h2
      rcases charsLe_total x3 y3 with h3 | h3
      · left; exact Or.inr ⟨rfl, Or.inr ⟨rfl, h3⟩⟩
      · right; exact Or.inr ⟨rfl, Or.inr ⟨rfl, h3⟩⟩
    · right; exact Or.inr ⟨rfl, Or.inl h2⟩
  · right; exact Or.inl h1

theorem keyLE_trans (x y z : Int × Int × List Char)
    (hxy : keyLE x y) (hyz : keyLE y z) : keyLE x z := by
  obtain ⟨x1, x2, x3⟩ := x
  obtain ⟨y1, y2, y3⟩ := y
  obtain ⟨z1, z2, z3⟩ := z
  rcases hxy with h1 | ⟨e1, h1⟩
  · rcases hyz with h2 | ⟨e2, h2⟩
    · exact Or.inl (lt_trans h1 h2)
    · exact Or.inl (e2 ▸ h1)
  · rcases hyz with h2 | ⟨e2, h2⟩
    · exact Or.inl (e1 ▸ h2)
    · refine Or.inr ⟨e1.trans e2, ?_⟩
      rcases h1 with h1 | ⟨f1, h1⟩
      · rcases h2 with h2 | ⟨f2, h2⟩
        · exact Or.inl (lt_trans h1 h2)
        · exact Or.inl (f2 ▸ h1)
      · rcases h2 with h2 | ⟨f2, h2⟩
        · exact Or.inl (f1 ▸ h2)
        · exact Or.inr ⟨f1.trans f2, charsLe_trans x3 y3 z3 h1 h2⟩

/-- C1: items are emitted sorted by the composite key (year as integer with
failure or absence as 0, citationCount likewise, title lowercased), the whole
tuple reversed: higher year first, then higher citation count, then the
lexicographically later lowercased title; the output is a permutation of the
input; missing or unparseable year/citationCount values resolve to 0 rather
than raising; and the spec's three-record example comes out Mid, Zeta, Alpha. -/
theorem c1_sort :
    (∀ l : List PublicationItem,
        List.Pairwise
          (fun a b =>
            toInt0 b.year < toInt0 a.year ∨
              (toInt0 b.year = toInt0 a.year ∧
                (toInt0 b.citationCount < toInt0 a.citationCount ∨
                  (toInt0 b.citationCount = toInt0 a.citationCount ∧
                    charsLe (lowerChars b.title) (lowerChars a.title) = true))))
          (sortItems l) ∧
        (sortItems l).Perm l) ∧
    toInt0 .jnull = 0 ∧ toInt0 (.jstr "") = 0 ∧ toInt0 (.jstr "n/a") = 0 ∧
    (sortItems [zetaItem, alphaItem, midItem]).map (fun x => x.title) =
      ["Mid", "Zeta", "Alpha"] := by
  haveI : IsTotal PublicationItem itemRel :=
    ⟨fun a b => keyLE_total (sortKey b) (sortKey a)⟩
  haveI : IsTrans PublicationItem itemRel :=
    ⟨fun a b c hab hbc => keyLE_trans (sortKey c) (sortKey b) (sortKey a) hbc hab⟩
  refine ⟨fun l => ⟨?_, List.perm_insertionSort itemRel l⟩, by decide, by decide,
    by decide, by decide⟩
  exact List.sorted_insertionSort itemRel l

/-- C2 counterexample: norm_doi is not idempotent; a second application of
norm_doi to the normal form of "doi:doi:a" strips a second "doi:" prefix. -/
theorem c2_cex : norm_doi (norm_doi "doi:doi:a") ≠ norm_doi "doi:doi:a" := by
  decide

/-- C2 as amended: norm_doi is idempotent on every string whose normalized
form is clean — already stripped, containing neither doi.org URL form, and
not starting case-insensitively with "doi:". -/
theorem c2_amended (s : String)
    (h1 : stripChars (norm_doi s).data = (norm_doi s).data)
    (h2 : containsPat httpsPat (norm_doi s).data = false)
    (h3 : containsPat httpPat (norm_doi s).data = false)
    (h4 : lowerStartsDoi (norm_doi s).data = false) :
    norm_doi (norm_doi s) = norm_doi s :=
  norm_doi_fixpoint (norm_doi s) h1 h2 h3 h4

/-- C2 witness: the amended idempotence at the concrete input "10.1/x". -/
theorem c2_amended_witness : norm_doi (norm_doi "10.1/x") = norm_doi "10.1/x" :=
  c2_amended "10.1/x" (by decide) (by decide) (by decide) (by decide)

/-- C3 counterexample: norm_doi does not merely strip a leading recognized
prefix: it removes the doi.org URL form from the middle of the string, and it
strips two recognized prefixes from "https://doi.org/doi:10.1/x", so it
disagrees with the spec-modelled leading-prefix normalization. -/
theorem c3_cex :
    norm_doi "a https://doi.org/b" = "a b" ∧
    specNormDoi "a https://doi.org/b" = "a https://doi.org/b" ∧
    norm_doi "a https://doi.org/b" ≠ specNormDoi "a https://doi.org/b" ∧
    norm_doi "https://doi.org/doi:10.1/x" = "10.1/x" := by
  refine ⟨by decide, by decide, by decide, by decide⟩

/-- C3 as amended: norm_doi trims the string, removes ALL occurrences of
"https://doi.org/" and then of "http://doi.org/" anywhere in it, then drops
a leading case-insensitive "doi:" and re-trims; the body's case is
preserved, and the spec's three examples hold. -/
theorem c3_amended :
    (∀ s, norm_doi s = specNormDoiAmended s) ∧
    norm_doi "https://doi.org/10.1/x" = "10.1/x" ∧
    norm_doi "DOI:10.1/x" = "10.1/x" ∧
    norm_doi "  10.1/X " = "10.1/X" := by
  refine ⟨fun s => ?_, by decide, by decide, by decide⟩
  by_cases he : s = ""
  · simp [norm_doi, specNormDoiAmended, he]
  · simp [norm_doi, specNormDoiAmended, he, doiCheck_prefix_iff]

/-- C4: an emitted item's selected flag is true exactly when its normalized
doi is non-empty and belongs to the selected set; an empty doi gives false
even when the empty string is in the set; and the spec's example — the file
contains https://doi.org/10.1/ABC, the record's DOI is 10.1/ABC — is
flagged true. -/
theorem c4_selected :
    (∀ (sel : Finset String) (p : RawPaper),
        (mk_item sel p).selected = true ↔
          ((mk_item sel p).doi ≠ "" ∧ (mk_item sel p).doi ∈ sel)) ∧
    (∀ sel : Finset String,
        (mk_item (insert "" sel) { : RawPaper }).selected = false) ∧
    (mk_item (load_selected_dois true true ["https://doi.org/10.1/ABC"]) recABC).selected
      = true := by
  refine ⟨fun sel p => ?_, fun sel => ?_, by decide⟩
  · by_cases h : doi_of p = "" <;> simp [mk_item, h]
  · simp [mk_item, doi_of, external_ids_of, norm_doi]

theorem collectNames_eq (l : List AuthorEnt) :
    collectNames l = l.filterMap goodName := by
  induction l with
  | nil => rfl
  | cons a rest ih =>
    cases h : entName a with
    | none => simp [collectNames, List.filterMap_cons, goodName, h, ih]
    | some n =>
      by_cases hn : n = "" <;>
        simp [collectNames, List.filterMap_cons, goodName, h, hn, ih]

/-- C8: the authors string is the entities' display names — extracted from a
mapping, bare string, or attribute-bearing object — each trimmed, with
entities yielding an empty name skipped, joined by ", " in the original
order; and the spec's example flattens to "A. Smith, B. Lee". -/
theorem c8_authors :
    (∀ l : List AuthorEnt,
        authors_to_str l = String.intercalate ", " (l.filterMap goodName)) ∧
    authors_to_str
        [.dict (some "A. Smith"), .dict (some ""), .dict (some " B. Lee ")] =
      "A. Smith, B. Lee" := by
  refine ⟨fun l => ?_, by decide⟩
  by_cases h : l = []
  · subst h; rfl
  · simp [authors_to_str, h, collectNames_eq]

/-- C9: the url field is the provider url when non-empty, else synthesized
from the paperId when present, else empty; with the spec's two examples. -/
theorem c9_url :
    (∀ (sel : Finset String) (p : RawPaper),
        (p.url.getD "" ≠ "" → (mk_item sel p).url = p.url.getD "") ∧
        (p.url.getD "" = "" → paper_id_of p ≠ "" →
          (mk_item sel p).url =
            "https://www.semanticscholar.org/paper/" ++ paper_id_of p) ∧
        (p.url.getD "" = "" → paper_id_of p = "" → (mk_item sel p).url = "")) ∧
    (mk_item ∅ recUrlEx).url = "https://www.semanticscholar.org/paper/abc123" ∧
    (mk_item ∅ { : RawPaper }).url = "" := by
  refine ⟨fun sel p => ⟨fun h => ?_, fun h hp => ?_, fun h hp => ?_⟩, by decide,
    by decide⟩
  · simp [mk_item, url_of, h]
  · simp [mk_item, url_of, h, hp]
  · simp [mk_item, url_of, h, hp]

theorem loadStep_eq (acc : Finset String) (line : String) :
    loadStep acc line = if keepLine line then insert (lineDoi line) acc else acc := by
  by_cases h : ((stripChars line.data).isEmpty ||
      startsWithHash (stripChars line.data)) = true
  · have hk : keepLine line = false := by simp [keepLine, h]
    simp [loadStep, h, hk]
  · have hb : ((stripChars line.data).isEmpty ||
        startsWithHash (stripChars line.data)) = false :=
      Bool.eq_false_iff.mpr h
    have hk : keepLine line = true := by simp [keepLine, hb]
    simp [loadStep, hb, hk, lineDoi]

theorem load_foldl_eq (lines : List String) (acc : Finset String) :
    lines.foldl loadStep acc =
      acc ∪ ((lines.filter keepLine).map lineDoi).toFinset := by
  induction lines generalizing acc with
  | nil => simp
  | cons line rest ih =>
    rw [List.foldl_cons, loadStep_eq, List.filter_cons]
    by_cases hk : keepLine line = true
    · rw [if_pos hk, if_pos hk, ih]
      simp [List.toFinset_cons, Finset.insert_union, Finset.union_insert]
    · rw [if_neg hk, if_neg hk, ih]

/-- C7: with the file absent (or the path falsy) the selected set is empty
and every emitted item has selected false; otherwise the set is exactly the
normalized forms of the lines that survive the blank/#-comment skip, under
set semantics, so duplicate lines collapse. -/
theorem c7_load :
    (∀ (pg : Bool) (lines : List String), load_selected_dois pg false lines = ∅) ∧
    (∀ (fe : Bool) (lines : List String), load_selected_dois false fe lines = ∅) ∧
    (∀ lines : List String,
        load_selected_dois true true lines =
          ((lines.filter keepLine).map lineDoi).toFinset) ∧
    (∀ lines : List String,
        load_selected_dois true true (lines ++ lines) =
          load_selected_dois true true lines) ∧
    (∀ (pg : Bool) (lines : List String) (p : RawPaper),
        (mk_item (load_selected_dois pg false lines) p).selected = false) := by
  have hload : ∀ lines : List String,
      load_selected_dois true true lines =
        ((lines.filter keepLine).map lineDoi).toFinset := by
    intro lines
    simp [load_selected_dois, load_foldl_eq lines ∅]
  refine ⟨fun pg lines => by simp [load_selected_dois],
    fun fe lines => by simp [load_selected_dois], hload, fun lines => ?_,
    fun pg lines p => ?_⟩
  · simp [hload]
  · have : load_selected_dois pg false lines = ∅ := by simp [load_selected_dois]
    rw [this]
    by_cases h : doi_of p = "" <;> simp [mk_item, h]

/-- C5 counterexample: when the keyword-form provider request raises
TypeError during fetching, the run does not abort — a second provider request
is made, the pipeline succeeds, and the output file is written. -/
theorem c5_cex :
    isOkB (main true true [] (.error .typeError) (.ok [some { : RawPaper }]) 5
        "A" "2026-10-12") = true ∧
    written none (main true true [] (.error .typeError)
        (.ok [some { : RawPaper }]) 5 "A" "2026-10-12") ≠ none := by
  refine ⟨by decide, by decide⟩

/-- C5 as amended: for every provider exception other than TypeError the run
aborts with that exception — whatever the provider would answer to any
further request, so no retry is performed — and the output file keeps its
prior contents; a TypeError from the keyword-form request triggers exactly
one fallback plain-form request, and an error there likewise aborts the run
without writing. -/
theorem c5_amended :
    (∀ (pg fe : Bool) (lines : List String)
        (cp : Except PyExc (List (Option RawPaper))) (limit : Nat)
        (aid today : String) (prior : Option ExportDocument) (e : PyExc),
        e ≠ .typeError →
          main pg fe lines (.error e) cp limit aid today = .error e ∧
          written prior (main pg fe lines (.error e) cp limit aid today) = prior) ∧
    (∀ (pg fe : Bool) (lines : List String) (limit : Nat) (aid today : String)
        (prior : Option ExportDocument) (e2 : PyExc),
        main pg fe lines (.error .typeError) (.error e2) limit aid today =
            .error e2 ∧
        written prior
            (main pg fe lines (.error .typeError) (.error e2) limit aid today) =
          prior) := by
  constructor
  · intro pg fe lines cp limit aid today prior e he
    cases e with
    | typeError => exact absurd rfl he
    | connectionError => exact ⟨rfl, rfl⟩
    | otherError msg => exact ⟨rfl, rfl⟩
  · intro pg fe lines limit aid today prior e2
    exact ⟨rfl, rfl⟩

/-- C6 counterexample: with limit 1, a keyword-form provider response of two
records is consumed whole — both records become items, so more than limit
records are consumed and turned into PublicationItems. -/
theorem c6_cex :
    itemsLen (main true true [] (.ok [some { : RawPaper }, some { : RawPaper }])
        (.ok []) 1 "A" "2026-10-12") = 2 ∧
    ¬(2 ≤ 1) := by
  refine ⟨by decide, by decide⟩

theorem length_build_items (sel : Finset String) (papers : List (Option RawPaper)) :
    (build_items sel papers).length = (papers.filterMap id).length := by
  induction papers with
  | nil => rfl
  | cons p rest ih =>
    cases p <;> simp [build_items, List.filterMap_cons, ih] <;>
      simpa [build_items] using ih

theorem length_sortItems (l : List PublicationItem) :
    (sortItems l).length = l.length :=
  (List.perm_insertionSort itemRel l).length_eq

/-- C6 as amended: the at-most-limit cap holds in the fallback branch (a
TypeError from the keyword form): there at most limit records are consumed
no matter how many pages the plain-form lazy sequence spans.  In the
keyword-form branch the exporter consumes every record the provider yields,
delegating the cap to the provider via the limit argument: the item count is
the number of non-null records returned.  Null/empty records are silently
skipped in both branches and never raise or produce an item. -/
theorem c6_amended :
    (∀ (pg fe : Bool) (lines : List String)
        (l : List (Option RawPaper))
        (limit : Nat) (aid today : String) (d : ExportDocument),
        main pg fe lines (.error .typeError) (.ok l) limit aid today = .ok d →
          d.items.length ≤ limit) ∧
    (∀ (pg fe : Bool) (lines : List String)
        (l : List (Option RawPaper)) (cp : Except PyExc (List (Option RawPaper)))
        (limit : Nat) (aid today : String) (d : ExportDocument),
        main pg fe lines (.ok l) cp limit aid today = .ok d →
          d.items.length = (l.filterMap id).length) ∧
    (∀ sel : Finset String, build_items sel [none, none] = []) := by
  refine ⟨fun pg fe lines l limit aid today d h => ?_,
    fun pg fe lines l cp limit aid today d h => ?_, fun sel => rfl⟩
  · have hd : d = build_doc aid today
        (build_items (load_selected_dois pg fe lines) (l.take limit)) := by
      simpa [main, iter_author_papers, Except.map] using h.symm
    subst hd
    simp only [build_doc]
    rw [length_sortItems, length_build_items]
    calc ((l.take limit).filterMap id).length ≤ (l.take limit).length :=
          List.length_filterMap_le id (l.take limit)
      _ ≤ limit := by simp [List.length_take]
  · have hd : d = build_doc aid today
        (build_items (load_selected_dois pg fe lines) l) := by
      simpa [main, iter_author_papers, Except.map] using h.symm
    subst hd
    simp only [build_doc]
    rw [length_sortItems, length_build_items]

/-- C10: every document the pipeline generates satisfies
counts.total = length(items). -/
theorem c10_counts :
    ∀ (pg fe : Bool) (lines : List String)
      (ckw cp : Except PyExc (List (Option RawPaper)))
      (limit : Nat) (aid today : String) (d : ExportDocument),
      main pg fe lines ckw cp limit aid today = .ok d →
        d.counts.total = d.items.length := by
  intro pg fe lines ckw cp limit aid today d h
  cases hk : iter_author_papers ckw cp limit with
  | ok papers =>
    have hd : d = build_doc aid today
        (build_items (load_selected_dois pg fe lines) papers) := by
      have := h
      simp only [main, hk, Except.map] at this
      exact (Except.ok.injEq _ _).mp this |>.symm
    subst hd
    rfl
  | error e =>
    simp only [main, hk, Except.map] at h
    exact Except.noConfusion h

/-- C10 witness: a concrete one-record run generates a document whose total
equals its item count. -/
theorem c10_counts_witness :
    (build_doc "A" "2026-10-12"
        (build_items (load_selected_dois true true [])
          [some { : RawPaper }])).counts.total =
      (build_doc "A" "2026-10-12"
        (build_items (load_selected_dois true true [])
          [some { : RawPaper }])).items.length :=
  c10_counts true true [] (.ok [some { : RawPaper }]) (.ok []) 7 "A" "2026-10-12"
    (build_doc "A" "2026-10-12"
      (build_items (load_selected_dois true true []) [some { : RawPaper }]))
    rfl

end S2P

